import Mathlib

/-
Verification of the background-removal service in src/backend/main.py.

The service is a single FastAPI route.  Its handler pipeline is:
  image_bytes ← file.read()
  img     := Image.open(BytesIO(image_bytes)).convert('RGB')
  out_img := remover.process(img, type='rgba')
  buf     := PNG-encode out_img
  return Response(content=buf, media_type='image/png')

The image codec (PIL decode / PNG encode) and the background-removal model
(`transparent_background.Remover`) are external collaborators; they are
embedded as abstract function fields of `Codec` and `Remover`, with their
documented contracts (dimension preservation, RGBA output, PNG round-trip)
stated as explicit predicates used as hypotheses.  PIL's `convert('RGB')`
is embedded concretely for the color modes it normalizes.
-/

namespace BgService

/-- Color modes of a decoded bitmap (the PIL modes relevant here). -/
inductive Mode
  | L
  | LA
  | RGB
  | RGBA
deriving DecidableEq, Repr

/-- Number of samples per pixel of a mode. -/
def Mode.bands : Mode → Nat
  | .L => 1
  | .LA => 2
  | .RGB => 3
  | .RGBA => 4

/-- An in-memory decoded bitmap: width, height, color mode, and the pixel
grid as a row-major list of per-pixel sample lists. -/
structure Bitmap where
  width : Nat
  height : Nat
  mode : Mode
  data : List (List Nat)
deriving DecidableEq, Repr

/-- Well-formedness of a bitmap: one pixel per grid cell, and each pixel
has exactly as many samples as its mode has bands. -/
def Bitmap.Wf (b : Bitmap) : Prop :=
  b.data.length = b.width * b.height ∧ ∀ p ∈ b.data, p.length = b.mode.bands

/-- Per-pixel semantics of PIL `convert('RGB')`: grayscale is replicated to
three channels, an alpha sample is discarded, RGB is unchanged. -/
def convertPixelRGB : Mode → List Nat → List Nat
  | .L, p => [p.headD 0, p.headD 0, p.headD 0]
  | .LA, p => [p.headD 0, p.headD 0, p.headD 0]
  | .RGB, p => p
  | .RGBA, p => p.take 3

/-- Embedding of `img.convert('RGB')` from main.py line 20: same
dimensions, mode forced to RGB, each pixel normalized to three samples. -/
def Bitmap.convert (b : Bitmap) : Bitmap :=
  { width := b.width, height := b.height, mode := .RGB,
    data := b.data.map (convertPixelRGB b.mode) }

/-- The image codec (PIL): `decode` is `Image.open` (`none` = the decode
exception on malformed bytes), `encodePNG` is `save(format='PNG')`
(`none` = an encode failure). -/
structure Codec where
  decode : List Nat → Option Bitmap
  encodePNG : Bitmap → Option (List Nat)

/-- The background-removal model handle (`transparent_background.Remover`):
construction arguments plus the opaque inference call `process img ty`
(`none` = an internal inference exception). -/
structure Remover where
  mode : String
  resize : String
  process : Bitmap → String → Option Bitmap

/-- Errors of the three-stage pipeline, plus the framework-level
validation error for a request missing its required file field and the
routing error for an unknown route. -/
inductive ServiceError
  | decodeError
  | processingError
  | encodeError
  | validationError
  | notFound
deriving DecidableEq, Repr

/-- An HTTP response as the handler produces it: FastAPI `Response` with
default status 200 and the given content and media type. -/
structure HttpResponse where
  status : Nat
  media_type : String
  content : List Nat
deriving DecidableEq, Repr

/-- The pipeline stages after decoding and RGB conversion (main.py lines
21-24): model inference with `type='rgba'`, PNG encoding, response. -/
def process_stage (codec : Codec) (remover : Remover) (img : Bitmap) :
    Except ServiceError HttpResponse :=
  match remover.process img "rgba" with
  | none => .error .processingError
  | some out_img =>
    match codec.encodePNG out_img with
    | none => .error .encodeError
    | some buf => .ok { status := 200, media_type := "image/png", content := buf }

/-- The handler body of `remove_background_endpoint` (main.py lines 18-24):
decode the uploaded bytes (a failure is a Decode Error), normalize to RGB,
then run the remaining stages. -/
def remove_background_endpoint (codec : Codec) (remover : Remover)
    (image_bytes : List Nat) : Except ServiceError HttpResponse :=
  match codec.decode image_bytes with
  | none => .error .decodeError
  | some img0 => process_stage codec remover img0.convert

/-- The route table of the FastAPI `app`: the single registration
`@app.post("/api/remove-background")` (main.py line 17). -/
def app_routes : List (String × String) := [("POST", "/api/remove-background")]

/-- An incoming HTTP request: method, path, and the optional multipart
field named `file`. -/
structure Request where
  method : String
  path : String
  file : Option (List Nat)

/-- Framework dispatch, embedding FastAPI's routing plus the required-field
validation declared by `file: UploadFile = File(...)` (main.py line 18): a
request on the registered route whose `file` field is absent is rejected
with a validation error before the handler body runs. -/
def dispatch (codec : Codec) (remover : Remover) (req : Request) :
    Except ServiceError HttpResponse :=
  if (req.method, req.path) ∈ app_routes then
    match req.file with
    | none => .error .validationError
    | some bytes => remove_background_endpoint codec remover bytes
  else .error .notFound

/-- The model contract on dimensions (spec section 3): inference output has
the input's width and height. -/
def DimsContract (r : Remover) : Prop :=
  ∀ img out, r.process img "rgba" = some out →
    out.width = img.width ∧ out.height = img.height

/-- The model contract on channels (spec section 6): with `type='rgba'` the
inference output is a four-channel RGBA bitmap. -/
def RgbaContract (r : Remover) : Prop :=
  ∀ img out, r.process img "rgba" = some out → out.mode = .RGBA

/-- The model contract on shape: inference output of a well-formed input is
well-formed (one sample list of the right length per pixel). -/
def WfContract (r : Remover) : Prop :=
  ∀ img out, img.Wf → r.process img "rgba" = some out → out.Wf

/-- The codec round-trip contract (spec section 6): bytes produced by the
PNG encoder decode back to the encoded bitmap. -/
def RoundTrip (c : Codec) : Prop :=
  ∀ b buf, c.encodePNG b = some buf → c.decode buf = some b

/-- Embedding of `Remover(mode='fast', resize='dynamic')` (main.py line
15), with the library's underlying inference function left abstract as
`infer`. -/
def load_remover (infer : Bitmap → String → Option Bitmap) : Remover :=
  { mode := "fast", resize := "dynamic", process := infer }

/-- Process-wide state: the single module-level `remover` handle, plus a
count of how many model instances have been constructed. -/
structure ProcState where
  remover : Remover
  instances_created : Nat

/-- Process startup: the module top level of main.py constructs the one
`remover` instance before the server accepts requests. -/
def startup (infer : Bitmap → String → Option Bitmap) : ProcState :=
  { remover := load_remover infer, instances_created := 1 }

/-- Observable side effects a request handler could perform. -/
inductive Effect
  | respond (r : HttpResponse)
  | fs_write (path : String) (data : List Nat)
  | log (msg : String)
deriving DecidableEq, Repr

/-- One request served against the process state: the handler body reads
the module-level `remover`, writes no state, and its only effect is the
response it returns (on an exception it emits nothing; the framework's
error response is outside the handler). -/
def handle_request (codec : Codec) (s : ProcState) (image_bytes : List Nat) :
    ProcState × Except ServiceError HttpResponse × List Effect :=
  let result := remove_background_endpoint codec s.remover image_bytes
  (s, result, match result with
    | .ok resp => [Effect.respond resp]
    | .error _ => [])

/-- A sequence of requests served one after another against the process
state, collecting the per-request results. -/
def serve (codec : Codec) : ProcState → List (List Nat) →
    ProcState × List (Except ServiceError HttpResponse)
  | s, [] => (s, [])
  | s, b :: rest =>
    let step := handle_request codec s b
    let next := serve codec step.1 rest
    (next.1, step.2.1 :: next.2)

/-! Concrete instances used to witness the contract hypotheses. -/

/-- A concrete 1×1 RGBA bitmap (opaque pixel). -/
def demoIn : Bitmap := { width := 1, height := 1, mode := .RGBA, data := [[10, 20, 30, 255]] }

/-- A concrete 1×1 RGBA bitmap agreeing with `demoIn` on RGB but
transparent. -/
def demoIn2 : Bitmap := { width := 1, height := 1, mode := .RGBA, data := [[10, 20, 30, 0]] }

/-- A concrete inference function: keep dimensions, emit an RGBA pixel
(first three input samples plus a constant alpha) for every input pixel. -/
def demoInfer : Bitmap → String → Option Bitmap :=
  fun img ty =>
    if ty = "rgba" then
      some { width := img.width, height := img.height, mode := .RGBA,
             data := img.data.map (fun p => [p.headD 0, p.getD 1 0, p.getD 2 0, 128]) }
    else none

/-- The model output `demoInfer` produces from `demoIn.convert`. -/
def demoOut : Bitmap := { width := 1, height := 1, mode := .RGBA, data := [[10, 20, 30, 128]] }

/-- A concrete remover built from `demoInfer`. -/
def demoRemover : Remover := load_remover demoInfer

/-- A concrete codec: byte string `[17]` decodes to `demoIn`, `[18]` to
`demoIn2`, `[99]` to `demoOut`; the encoder maps `demoOut` to `[99]`,
giving the PNG round-trip on everything it encodes. -/
def demoCodec : Codec :=
  { decode := fun bs =>
      if bs = [17] then some demoIn
      else if bs = [18] then some demoIn2
      else if bs = [99] then some demoOut
      else none,
    encodePNG := fun b => if b = demoOut then some [99] else none }

/-! Helper lemmas. -/

/-- RGB conversion yields exactly three samples per well-sized pixel. -/
theorem convertPixelRGB_length (m : Mode) (p : List Nat) (h : p.length = m.bands) :
    (convertPixelRGB m p).length = 3 := by
  cases m <;> simp [convertPixelRGB, Mode.bands] at h ⊢ <;> omega

/-- RGB conversion preserves well-formedness. -/
theorem Bitmap.convert_wf (b : Bitmap) (h : b.Wf) : b.convert.Wf := by
  obtain ⟨hlen, hpix⟩ := h
  constructor
  · simpa [Bitmap.convert] using hlen
  · intro p hp
    simp only [Bitmap.convert, List.mem_map] at hp
    obtain ⟨q, hq, rfl⟩ := hp
    exact convertPixelRGB_length b.mode q (hpix q hq)

/-- Serving any request list leaves the process state unchanged. -/
theorem serve_fst (codec : Codec) (s : ProcState) (reqs : List (List Nat)) :
    (serve codec s reqs).1 = s := by
  induction reqs generalizing s with
  | nil => rfl
  | cons b rest ih =>
    show (serve codec ((handle_request codec s b).1) rest).1 = s
    exact ih s

/-- The demo codec satisfies the PNG round-trip contract. -/
theorem demo_roundtrip : RoundTrip demoCodec := by
  intro b buf h
  by_cases hb : b = demoOut
  · subst hb
    simp only [demoCodec, if_pos rfl] at h
    cases h
    decide
  · simp only [demoCodec, if_neg hb] at h
    cases h

/-- The demo inference function preserves dimensions. -/
theorem demo_dims : DimsContract demoRemover := by
  intro img out h
  simp only [demoRemover, load_remover, demoInfer, if_pos rfl] at h
  cases h
  exact ⟨rfl, rfl⟩

/-- The demo inference function produces RGBA output. -/
theorem demo_rgba : RgbaContract demoRemover := by
  intro img out h
  simp only [demoRemover, load_remover, demoInfer, if_pos rfl] at h
  cases h
  rfl

/-- The demo inference function preserves well-formedness. -/
theorem demo_wf : WfContract demoRemover := by
  intro img out hwf h
  simp only [demoRemover, load_remover, demoInfer, if_pos rfl] at h
  cases h
  constructor
  · simpa using hwf.1
  · intro p hp
    simp only [List.mem_map] at hp
    obtain ⟨q, _, rfl⟩ := hp
    rfl

/-! Claim theorems. -/

/-- C1: for every byte sequence that decodes to a valid input image `I`,
if the handler succeeds then the PNG in the response body decodes to an
output image whose width and height equal those of `I` (given the codec's
round-trip contract and the external model's dimension contract). -/
theorem C1_output_dims_eq_input_dims
    (codec : Codec) (remover : Remover) (image_bytes : List Nat) (I : Bitmap)
    (hrt : RoundTrip codec) (hdims : DimsContract remover)
    (hdec : codec.decode image_bytes = some I)
    (resp : HttpResponse)
    (hok : remove_background_endpoint codec remover image_bytes = .ok resp) :
    ∃ O, codec.decode resp.content = some O ∧
      O.width = I.width ∧ O.height = I.height := by
  unfold remove_background_endpoint process_stage at hok
  simp only [hdec] at hok
  cases hp : remover.process I.convert "rgba" with
  | none => simp only [hp] at hok; cases hok
  | some out =>
    simp only [hp] at hok
    cases he : codec.encodePNG out with
    | none => simp only [he] at hok; cases hok
    | some buf =>
      simp only [he, Except.ok.injEq] at hok
      subst hok
      refine ⟨out, hrt out buf he, ?_, ?_⟩
      · exact (hdims I.convert out hp).1
      · exact (hdims I.convert out hp).2

/-- Witness for C1 at the demo instances: upload `[17]` decodes to the
1×1 `demoIn`, and the response body decodes to a 1×1 output. -/
theorem C1_witness :
    ∃ O, demoCodec.decode (HttpResponse.mk 200 "image/png" [99]).content = some O ∧
      O.width = demoIn.width ∧ O.height = demoIn.height :=
  C1_output_dims_eq_input_dims demoCodec demoRemover [17] demoIn
    demo_roundtrip demo_dims rfl (HttpResponse.mk 200 "image/png" [99]) rfl

/-- C2: for every byte sequence that decodes to a valid (well-formed)
input image, a successful response body decodes to the model's output for
that image: a four-channel RGBA bitmap — its alpha samples are exactly the
model's segmentation output — with four samples per pixel. -/
theorem C2_output_is_rgba_png_of_model
    (codec : Codec) (remover : Remover) (image_bytes : List Nat) (I : Bitmap)
    (hrt : RoundTrip codec) (hrgba : RgbaContract remover) (hwf : WfContract remover)
    (hdec : codec.decode image_bytes = some I) (hIwf : I.Wf)
    (resp : HttpResponse)
    (hok : remove_background_endpoint codec remover image_bytes = .ok resp) :
    ∃ O, codec.decode resp.content = some O ∧
      remover.process I.convert "rgba" = some O ∧
      O.mode = Mode.RGBA ∧ O.mode.bands = 4 ∧
      ∀ p ∈ O.data, p.length = 4 := by
  unfold remove_background_endpoint process_stage at hok
  simp only [hdec] at hok
  cases hp : remover.process I.convert "rgba" with
  | none => simp only [hp] at hok; cases hok
  | some out =>
    simp only [hp] at hok
    cases he : codec.encodePNG out with
    | none => simp only [he] at hok; cases hok
    | some buf =>
      simp only [he, Except.ok.injEq] at hok
      subst hok
      have hmode : out.mode = Mode.RGBA := hrgba I.convert out hp
      have howf : out.Wf := hwf I.convert out (I.convert_wf hIwf) hp
      refine ⟨out, hrt out buf he, rfl, hmode, by rw [hmode]; rfl, ?_⟩
      intro p hpmem
      have := howf.2 p hpmem
      rwa [hmode] at this

/-- Witness for C2 at the demo instances: the response to upload `[17]`
decodes to the model's RGBA output for `demoIn.convert`. -/
theorem C2_witness :
    ∃ O, demoCodec.decode (HttpResponse.mk 200 "image/png" [99]).content = some O ∧
      demoRemover.process demoIn.convert "rgba" = some O ∧
      O.mode = Mode.RGBA ∧ O.mode.bands = 4 ∧
      ∀ p ∈ O.data, p.length = 4 :=
  C2_output_is_rgba_png_of_model demoCodec demoRemover [17] demoIn
    demo_roundtrip demo_rgba demo_wf rfl ⟨rfl, by decide⟩
    (HttpResponse.mk 200 "image/png" [99]) rfl

/-- C3: the handler fails with a Decode Error exactly on the byte
sequences the codec cannot decode; on decodable input no Decode Error
occurs, and an undecodable input yields the error value (no response
body), not a crash — the handler is a total function into `Except`. -/
theorem C3_decode_error_iff_undecodable
    (codec : Codec) (remover : Remover) (image_bytes : List Nat) :
    remove_background_endpoint codec remover image_bytes =
        .error ServiceError.decodeError ↔
      codec.decode image_bytes = none := by
  unfold remove_background_endpoint
  cases h : codec.decode image_bytes with
  | none => simp
  | some I =>
    simp only [reduceCtorEq, iff_false]
    intro hk
    unfold process_stage at hk
    cases hp : remover.process I.convert "rgba" with
    | none => simp only [hp] at hk; cases hk
    | some out =>
      simp only [hp] at hk
      cases he : codec.encodePNG out with
      | none => simp only [he] at hk; cases hk
      | some buf => simp only [he] at hk; cases hk

/-- C4: on every decodable input, what the handler does is exactly: pass
the RGB-normalized input to the remaining pipeline, whose first step is
the model inference call — the bitmap given to inference is `I.convert`,
which has exactly three color channels, with no other pre-processing. -/
theorem C4_inference_input_is_rgb_normalized
    (codec : Codec) (remover : Remover) (image_bytes : List Nat) (I : Bitmap)
    (hdec : codec.decode image_bytes = some I) :
    remove_background_endpoint codec remover image_bytes =
        process_stage codec remover I.convert ∧
      I.convert.mode = Mode.RGB ∧ I.convert.mode.bands = 3 := by
  refine ⟨?_, rfl, rfl⟩
  unfold remove_background_endpoint
  rw [hdec]

/-- Witness for C4 at the demo instances. -/
theorem C4_witness :
    remove_background_endpoint demoCodec demoRemover [17] =
        process_stage demoCodec demoRemover demoIn.convert ∧
      demoIn.convert.mode = Mode.RGB ∧ demoIn.convert.mode.bands = 3 :=
  C4_inference_input_is_rgb_normalized demoCodec demoRemover [17] demoIn rfl

/-- C5: the app registers exactly the single route POST
/api/remove-background, and every request the dispatcher answers
successfully is on that route and gets status 200, media type image/png,
and a body equal to the PNG encoder's output bytes. -/
theorem C5_single_route_success_response
    (codec : Codec) (remover : Remover) :
    app_routes = [("POST", "/api/remove-background")] ∧
    ∀ req resp, dispatch codec remover req = .ok resp →
      req.method = "POST" ∧ req.path = "/api/remove-background" ∧
      resp.status = 200 ∧ resp.media_type = "image/png" ∧
      ∃ out buf, codec.encodePNG out = some buf ∧ resp.content = buf := by
  refine ⟨rfl, ?_⟩
  intro req resp hok
  unfold dispatch at hok
  by_cases hmem : (req.method, req.path) ∈ app_routes
  · rw [if_pos hmem] at hok
    simp only [app_routes, List.mem_singleton] at hmem
    refine ⟨congrArg Prod.fst hmem, congrArg Prod.snd hmem, ?_⟩
    cases hf : req.file with
    | none => simp only [hf] at hok; cases hok
    | some image_bytes =>
      simp only [hf] at hok
      unfold remove_background_endpoint process_stage at hok
      cases hd : codec.decode image_bytes with
      | none => simp only [hd] at hok; cases hok
      | some I =>
        simp only [hd] at hok
        cases hpz : remover.process I.convert "rgba" with
        | none => simp only [hpz] at hok; cases hok
        | some out =>
          simp only [hpz] at hok
          cases he : codec.encodePNG out with
          | none => simp only [he] at hok; cases hok
          | some buf =>
            simp only [he, Except.ok.injEq] at hok
            subst hok
            exact ⟨rfl, rfl, out, buf, he, rfl⟩
  · rw [if_neg hmem] at hok; cases hok

/-- Witness for C5 at the demo instances: a request with the file field
`[17]` is answered with status 200, media type image/png, and the demo
encoder's bytes. -/
theorem C5_witness :
    (Request.mk "POST" "/api/remove-background" (some [17])).method = "POST" ∧
    (Request.mk "POST" "/api/remove-background" (some [17])).path =
      "/api/remove-background" ∧
    (HttpResponse.mk 200 "image/png" [99]).status = 200 ∧
    (HttpResponse.mk 200 "image/png" [99]).media_type = "image/png" ∧
    ∃ out buf, demoCodec.encodePNG out = some buf ∧
      (HttpResponse.mk 200 "image/png" [99]).content = buf :=
  (C5_single_route_success_response demoCodec demoRemover).2
    (Request.mk "POST" "/api/remove-background" (some [17]))
    (HttpResponse.mk 200 "image/png" [99]) rfl

/-- C6: process startup creates exactly one model instance before any
request is served, serving any request list leaves the process state (in
particular the remover) unchanged, every individual request preserves the
state, and a request's only effect is its response (no file-system write,
no log entry). -/
theorem C6_model_loaded_once_requests_pure
    (infer : Bitmap → String → Option Bitmap) (codec : Codec)
    (reqs : List (List Nat)) :
    (serve codec (startup infer) reqs).1 = startup infer ∧
    (startup infer).instances_created = 1 ∧
    (startup infer).remover = load_remover infer ∧
    (∀ s image_bytes, (handle_request codec s image_bytes).1 = s) ∧
    (∀ s image_bytes, (handle_request codec s image_bytes).2.2 = [] ∨
      ∃ r, (handle_request codec s image_bytes).2.2 = [Effect.respond r]) := by
  refine ⟨serve_fst codec (startup infer) reqs, rfl, rfl, fun s b => rfl, ?_⟩
  intro s b
  cases hr : remove_background_endpoint codec s.remover b with
  | ok r => right; exact ⟨r, by simp [handle_request, hr]⟩
  | error e => left; simp [handle_request, hr]

/-- C7: the handler is deterministic — serving the same byte sequence
twice in a row yields two equal results, hence responses with identical
PNG bytes and so identical pixel content (the external model is embedded
as a function, i.e. assumed deterministic). -/
theorem C7_same_bytes_twice_identical_responses
    (codec : Codec) (s : ProcState) (image_bytes : List Nat) :
    ∃ r, (serve codec s [image_bytes, image_bytes]).2 = [r, r] :=
  ⟨remove_background_endpoint codec s.remover image_bytes, rfl⟩

/-- C8: a request on the registered route whose multipart body lacks the
required `file` field is rejected with a validation error — an error
distinct from a Decode Error — and this happens for every codec and every
remover identically, so neither decoding nor inference is consulted. -/
theorem C8_missing_file_rejected_by_validation
    (codec : Codec) (remover : Remover) (req : Request)
    (hm : req.method = "POST") (hp : req.path = "/api/remove-background")
    (hf : req.file = none) :
    dispatch codec remover req = .error ServiceError.validationError ∧
    ServiceError.validationError ≠ ServiceError.decodeError ∧
    ∀ (codec2 : Codec) (remover2 : Remover),
      dispatch codec2 remover2 req = .error ServiceError.validationError := by
  have key : ∀ (c : Codec) (r : Remover),
      dispatch c r req = .error ServiceError.validationError := by
    intro c r
    unfold dispatch
    have hmem : (req.method, req.path) ∈ app_routes := by
      rw [hm, hp]; simp [app_routes]
    rw [if_pos hmem]
    simp only [hf]
  exact ⟨key codec remover, by decide, key⟩

/-- Witness for C8: the concrete request with no file field is rejected
with a validation error. -/
theorem C8_witness :
    dispatch demoCodec demoRemover
        (Request.mk "POST" "/api/remove-background" none) =
      .error ServiceError.validationError ∧
    ServiceError.validationError ≠ ServiceError.decodeError ∧
    ∀ (codec2 : Codec) (remover2 : Remover),
      dispatch codec2 remover2 (Request.mk "POST" "/api/remove-background" none) =
        .error ServiceError.validationError :=
  C8_missing_file_rejected_by_validation demoCodec demoRemover
    (Request.mk "POST" "/api/remove-background" none) rfl rfl rfl

/-- C9: the response depends only on the RGB content of the decoded
input — two uploads whose decoded RGBA bitmaps agree on dimensions and on
the RGB samples of every pixel, differing only in alpha, produce identical
handler results, because `convert('RGB')` discards the alpha samples. -/
theorem C9_output_independent_of_alpha
    (codec : Codec) (remover : Remover) (b1 b2 : List Nat) (I1 I2 : Bitmap)
    (h1 : codec.decode b1 = some I1) (h2 : codec.decode b2 = some I2)
    (hm1 : I1.mode = Mode.RGBA) (hm2 : I2.mode = Mode.RGBA)
    (hw : I1.width = I2.width) (hh : I1.height = I2.height)
    (hrgb : I1.data.map (fun p => p.take 3) = I2.data.map (fun p => p.take 3)) :
    remove_background_endpoint codec remover b1 =
      remove_background_endpoint codec remover b2 := by
  have harg : convertPixelRGB Mode.RGBA = fun p => p.take 3 :=
    funext fun p => rfl
  have hconv : I1.convert = I2.convert := by
    unfold Bitmap.convert
    rw [hm1, hm2, hw, hh, harg, hrgb]
  unfold remove_background_endpoint
  simp only [h1, h2, hconv]

/-- Witness for C9: the opaque upload `[17]` and the transparent upload
`[18]` decode to bitmaps equal on RGB and get identical responses. -/
theorem C9_witness :
    remove_background_endpoint demoCodec demoRemover [17] =
      remove_background_endpoint demoCodec demoRemover [18] :=
  C9_output_independent_of_alpha demoCodec demoRemover [17] [18] demoIn demoIn2
    rfl rfl rfl rfl rfl rfl (by decide)

/-- C10: the operation is atomic on failure — whenever a request's
pipeline fails at any stage, the handler produces no response effects and
the process state (the model instance) is exactly what it was before. -/
theorem C10_failure_leaves_state_no_effects
    (codec : Codec) (s : ProcState) (image_bytes : List Nat)
    (s2 : ProcState) (e : ServiceError) (effs : List Effect)
    (h : handle_request codec s image_bytes = (s2, .error e, effs)) :
    s2 = s ∧ effs = [] := by
  cases hr : remove_background_endpoint codec s.remover image_bytes with
  | ok r => simp [handle_request, hr] at h
  | error e2 =>
    simp only [handle_request, hr, Prod.mk.injEq] at h
    exact ⟨h.1.symm, h.2.2.symm⟩

/-- Witness for C10: the undecodable upload `[5]` fails with a Decode
Error, the state is unchanged and no effects are emitted. -/
theorem C10_witness :
    startup demoInfer = startup demoInfer ∧ ([] : List Effect) = [] :=
  C10_failure_leaves_state_no_effects demoCodec (startup demoInfer) [5]
    (startup demoInfer) ServiceError.decodeError [] rfl

end BgService
